import Mathlib

/-!
Verification development for the Julia runtime configuration surface
(`src/options.h`) and the two subsystems it parameterizes: the size-class
pool allocator with its garbage collector, and the cooperative task
scheduler with copy-stack switching.  Compile-time constants are embedded
directly from `src/options.h`; the allocator, collector, resolver and
scheduler operations themselves are not present in `src/` and are modelled
from the specification, as marked on each definition.
-/

namespace JuliaRT

/-! ## Constants from `src/options.h` -/

/-- `N_CALL_CACHE`, options.h line 13. -/
def N_CALL_CACHE : Nat := 4096

/-- `ARRAY_INLINE_NBYTES`, options.h line 19 (with 8-byte pointers). -/
def ARRAY_INLINE_NBYTES : Nat := 2048 * 8

/-- `ARRAY_CACHE_ALIGN_THRESHOLD`, options.h line 23: arrays at least this
size get larger (cache) alignment; must be bigger than `GC_MAX_SZCLASS`. -/
def ARRAY_CACHE_ALIGN_THRESHOLD : Nat := 2048

/-- The debug poison byte: options.h lines 40-43 state that with `MEMDEBUG`
every object is filled with `0xbb` before being freed. -/
def MEMDEBUG_POISON_BYTE : Nat := 0xbb

/-- `DEFAULT_THREAD_SLEEP_THRESHOLD`, options.h line 126: `100*1000`
nanoseconds. -/
def DEFAULT_THREAD_SLEEP_THRESHOLD : Nat := 100 * 1000

/-- `THREAD_SLEEP_THRESHOLD_NAME`, options.h line 125. -/
def THREAD_SLEEP_THRESHOLD_NAME : String := "JULIA_THREAD_SLEEP_THRESHOLD"

/-- `NUM_THREADS_NAME`, options.h line 129. -/
def NUM_THREADS_NAME : String := "JULIA_NUM_THREADS"

/-- `JULIA_NUM_THREADS` default, options.h lines 130-132. -/
def JULIA_NUM_THREADS : Nat := 1

/-- `THREADPOOLS_NAME`, options.h line 135. -/
def THREADPOOLS_NAME : String := "JULIA_THREADPOOLS"

/-- `NUM_GC_THREADS_NAME`, options.h line 138. -/
def NUM_GC_THREADS_NAME : String := "JULIA_NUM_GC_THREADS"

/-- `HEAP_SIZE_HINT`, options.h line 141. -/
def HEAP_SIZE_HINT : String := "JULIA_HEAP_SIZE_HINT"

/-- `MACHINE_EXCLUSIVE_NAME`, options.h line 144. -/
def MACHINE_EXCLUSIVE_NAME : String := "JULIA_EXCLUSIVE"

/-- `DEFAULT_MACHINE_EXCLUSIVE`, options.h line 145. -/
def DEFAULT_MACHINE_EXCLUSIVE : Nat := 0

/-! ## Platform flags and the default task stack size -/

/-- Compile-time platform/compiler predicates consulted by the preprocessor
conditionals in options.h (`_COMPILER_ASAN_ENABLED_`,
`_COMPILER_MSAN_ENABLED_`, `_COMPILER_TSAN_ENABLED_`, `_P64`). -/
structure Platform where
  asanEnabled : Bool
  msanEnabled : Bool
  tsanEnabled : Bool
  p64 : Bool
deriving DecidableEq, Repr

/-- `JL_STACK_SIZE`, options.h lines 109-117: if not predefined, 64 MiB
under ASAN/MSAN, else 8 MiB on 64-bit (`_P64`) and 2 MiB on 32-bit. -/
def jlStackSize (predefined : Option Nat) (p : Platform) : Nat :=
  match predefined with
  | some n => n
  | none =>
    if p.asanEnabled || p.msanEnabled then 64 * 1024 * 1024
    else if p.p64 then 8 * 1024 * 1024
    else 2 * 1024 * 1024

/-- `COPY_STACKS` is defined at options.h line 103 but undefined again under
TSAN (options.h lines 160-162). -/
def copyStacksEnabled (p : Platform) : Bool := !p.tsanEnabled

/-- Modelled from the spec: `spawn(entry, stack_size?)` takes an optional
stack size; when none is given the default from the configuration is used.
The spawn operation itself is not in `src/`. -/
def spawnStackSize (requested : Option Nat) (cfgDefault : Nat) : Nat :=
  requested.getD cfgDefault

/-! ## Configuration resolver

Modelled from the spec (§4.1): `resolve()` is a pure function of the
compiled defaults (which are in `src/options.h`) and a fixed set of named
environment variables; the resolver implementation itself is not in
`src/`.  Unset variables fall back to compiled defaults; a value that must
be a non-negative integer but does not parse as one is a fatal
configuration error. -/

/-- The resolved immutable configuration value (spec §3). -/
structure Configuration where
  threadSleepThreshold : Nat
  numThreads : Nat
  machineExclusive : Nat
  numGcThreads : Option Nat
  heapSizeHint : Option Nat
  threadpools : Option String
deriving DecidableEq, Repr

/-- Modelled from the spec: read one numeric environment variable, falling
back to the compiled default when unset and failing fast when the value
does not parse as a non-negative integer. -/
def resolveNat (env : String → Option String) (name : String) (dflt : Nat) :
    Except String Nat :=
  match env name with
  | none => .ok dflt
  | some s =>
    match s.toNat? with
    | some n => .ok n
    | none => .error ("invalid value for " ++ name)

/-- Modelled from the spec: read one optional numeric environment variable
(no compiled default; unset stays unset). -/
def resolveOptNat (env : String → Option String) (name : String) :
    Except String (Option Nat) :=
  match env name with
  | none => .ok none
  | some s =>
    match s.toNat? with
    | some n => .ok (some n)
    | none => .error ("invalid value for " ++ name)

/-- Modelled from the spec: `resolve() -> Configuration` (spec §4.1, §6),
seeded from the names and defaults in options.h lines 124-145. -/
def resolve (env : String → Option String) : Except String Configuration := do
  let sleep ← resolveNat env THREAD_SLEEP_THRESHOLD_NAME DEFAULT_THREAD_SLEEP_THRESHOLD
  let nthreads ← resolveNat env NUM_THREADS_NAME JULIA_NUM_THREADS
  let excl ← resolveNat env MACHINE_EXCLUSIVE_NAME DEFAULT_MACHINE_EXCLUSIVE
  let gct ← resolveOptNat env NUM_GC_THREADS_NAME
  let hint ← resolveOptNat env HEAP_SIZE_HINT
  .ok { threadSleepThreshold := sleep
        numThreads := nthreads
        machineExclusive := excl
        numGcThreads := gct
        heapSizeHint := hint
        threadpools := env THREADPOOLS_NAME }

/-! ## Size-class pool allocator

Modelled from the spec (§4.2): the allocator itself is not in `src/`, only
its tunables.  `allocate(size)` selects the pool whose class is the
smallest size ≥ `size` when `size` is at most the large-object threshold
(the largest pool class); if the pool has no free slot it grows by one
page (or allocates a new pool) and retries once; sizes above the threshold
become standalone large objects, cache-aligned when
`size ≥ ARRAY_CACHE_ALIGN_THRESHOLD`. -/

/-- Allocator parameters.  `sizeClasses` is the ascending list of pool
classes (the largest is the large-object threshold); `alignThreshold` is
`ARRAY_CACHE_ALIGN_THRESHOLD`; `cacheAlign` the cache-line byte alignment;
`pageSize` the pool page size; `memDebug` the `MEMDEBUG` toggle. -/
structure AllocConfig where
  sizeClasses : List Nat
  alignThreshold : Nat
  cacheAlign : Nat
  pageSize : Nat
  memDebug : Bool

/-- A pool: one size class owning a free-list of slot addresses. -/
structure Pool where
  classSize : Nat
  freeList : List Nat
deriving DecidableEq, Repr

/-- Heap state: the pools, the live large-object records `(base, size)`,
a bump pointer for fresh memory, and the byte contents of memory. -/
structure Heap where
  pools : List Pool
  largeObjs : List (Nat × Nat)
  nextAddr : Nat
  mem : Nat → Nat

/-- Handle returned by `allocate`: either a pooled slot (recording its
size class, slot address and requested size) or a large object. -/
inductive ObjectHandle where
  | pooled (classSize addr size : Nat)
  | large (addr size : Nat)
deriving DecidableEq, Repr

/-- The requested size recorded in a handle. -/
def ObjectHandle.size : ObjectHandle → Nat
  | .pooled _ _ s => s
  | .large _ s => s

/-- The base address recorded in a handle. -/
def ObjectHandle.addr : ObjectHandle → Nat
  | .pooled _ a _ => a
  | .large a _ => a

/-- The large-object threshold is the largest pool size class. -/
def largeThreshold (c : AllocConfig) : Nat := c.sizeClasses.foldr max 0

/-- The size class serving `size`: the first (hence, on a sorted class
list, the smallest) class ≥ `size`; `none` means the large-object path. -/
def sizeClassFor (c : AllocConfig) (size : Nat) : Option Nat :=
  c.sizeClasses.find? (fun k => size ≤ k)

/-- Round `a` up to a multiple of `align`. -/
def alignUp (a align : Nat) : Nat := (a + align - 1) / align * align

/-- Grow a pool by one page of fresh slots carved at `base` (at least one
slot even for an oversized class). -/
def growPool (c : AllocConfig) (p : Pool) (base : Nat) : Pool :=
  let n := max 1 (c.pageSize / p.classSize)
  { p with freeList := p.freeList ++ (List.range n).map (fun i => base + i * p.classSize) }

/-- The pool for class `k`, or a fresh empty pool when none exists yet. -/
def getPool (h : Heap) (k : Nat) : Pool :=
  (h.pools.find? (fun p => p.classSize == k)).getD ⟨k, []⟩

/-- Replace the pool with `p.classSize` (or append `p` if absent). -/
def setPool : List Pool → Pool → List Pool
  | [], p => [p]
  | q :: rest, p => if q.classSize == p.classSize then p :: rest else q :: setPool rest p

/-- Modelled from the spec: `allocate(size) -> ObjectHandle` (spec §4.2).
Pool path: pop a free slot; on an empty free-list grow by one page and
retry once.  Large path: bump-allocate a standalone record, rounding the
base up to cache alignment when `size ≥ alignThreshold`. -/
def allocate (c : AllocConfig) (h : Heap) (size : Nat) :
    Except String (Heap × ObjectHandle) :=
  match sizeClassFor c size with
  | some k =>
    let p := getPool h k
    match p.freeList with
    | a :: rest =>
      .ok ({ h with pools := setPool h.pools { p with freeList := rest } },
           .pooled k a size)
    | [] =>
      let p2 := growPool c p h.nextAddr
      match p2.freeList with
      | a :: rest =>
        .ok ({ h with pools := setPool h.pools { p2 with freeList := rest },
                      nextAddr := h.nextAddr + c.pageSize },
             .pooled k a size)
      | [] => .error "out of memory"
  | none =>
    let base := if c.alignThreshold ≤ size then alignUp h.nextAddr c.cacheAlign
                else h.nextAddr
    .ok ({ h with largeObjs := (base, size) :: h.largeObjs,
                  nextAddr := base + size },
         .large base size)

/-- Overwrite the bytes of `[addr, addr+len)` with the `MEMDEBUG` poison
pattern `0xbb` (options.h lines 40-43). -/
def poisonRange (mem : Nat → Nat) (addr len : Nat) : Nat → Nat :=
  fun a => if addr ≤ a ∧ a < addr + len then MEMDEBUG_POISON_BYTE else mem a

/-- Modelled from the spec: `free(handle)` for a pooled slot (spec §4.2),
invoked only by the collector.  In debug-fill mode the slot's bytes are
overwritten with the poison pattern before the slot returns to the
free-list. -/
def freePooled (c : AllocConfig) (h : Heap) (k addr : Nat) : Heap :=
  let p := getPool h k
  { h with
    pools := setPool h.pools { p with freeList := addr :: p.freeList }
    mem := if c.memDebug then poisonRange h.mem addr k else h.mem }

/-- `true` when `allocate` succeeds. -/
def allocSucceeds (c : AllocConfig) (h : Heap) (size : Nat) : Bool :=
  match allocate c h size with
  | .ok _ => true
  | .error _ => false

/-- The pool class that served the request, `none` on the large path. -/
def servedClass (c : AllocConfig) (h : Heap) (size : Nat) : Option Nat :=
  match allocate c h size with
  | .ok (_, .pooled k _ _) => some k
  | _ => none

/-- `true` when the request was served as a standalone large object. -/
def isLargeAlloc (c : AllocConfig) (h : Heap) (size : Nat) : Bool :=
  match allocate c h size with
  | .ok (_, .large _ _) => true
  | _ => false

/-- The base address of the allocation, when it succeeds. -/
def allocBase (c : AllocConfig) (h : Heap) (size : Nat) : Option Nat :=
  match allocate c h size with
  | .ok (_, hdl) => some hdl.addr
  | .error _ => none

/-- The recorded size of the allocation, when it succeeds. -/
def allocSize (c : AllocConfig) (h : Heap) (size : Nat) : Option Nat :=
  match allocate c h size with
  | .ok (_, hdl) => some hdl.size
  | .error _ => none

/-- Modelled from the spec: `GC_MAX_SZCLASS`, the largest pool size class,
is not in `src/`; options.h line 22 requires `ARRAY_CACHE_ALIGN_THRESHOLD`
to be bigger than it (value as in the upstream GC: `2032 - sizeof(void*)`
on a 64-bit build). -/
def GC_MAX_SZCLASS : Nat := 2032 - 8

/-- The empty heap. -/
def emptyHeap : Heap := ⟨[], [], 0, fun _ => 0⟩

/-- The configuration of the spec's §8 scenario: large-object threshold
(largest class) = 2048 and alignment threshold = 2048. -/
def scenarioCfg : AllocConfig :=
  { sizeClasses := [16, 64, 256, 1024, 2048]
    alignThreshold := ARRAY_CACHE_ALIGN_THRESHOLD
    cacheAlign := 64
    pageSize := 16384
    memDebug := false }

/-! ## Collector tracing and `GC_VERIFY`

Modelled from the spec (§4.3): the collector is not in `src/`.  Marking
traverses the roots and transitively marks everything reachable,
idempotently (an already-marked object is not re-queued).  Under
`GC_VERIFY` (options.h lines 50-60) a full verification trace runs along
with every quick cycle and a mismatch of the two reachable sets is a fatal
internal-consistency error.  The quick cycle follows the object-graph
edges exposed by the runtime's layout introspection; the verification
trace re-reads the edges through the object headers, so the two agree
exactly when the headers are uncorrupted. -/

/-- Fuel-bounded worklist marking: pop an object; if already marked skip
it, otherwise mark it and queue its edges. -/
def gcMarkLoop (edges : Nat → List Nat) : Nat → List Nat → List Nat → List Nat
  | 0, _, marked => marked
  | _ + 1, [], marked => marked
  | fuel + 1, o :: wl, marked =>
    if o ∈ marked then gcMarkLoop edges fuel wl marked
    else gcMarkLoop edges fuel (edges o ++ wl) (o :: marked)

/-- A traced heap: the object universe, the true object graph (runtime
introspection), the graph as recorded in object headers, and the roots. -/
structure GcHeap where
  objects : List Nat
  edgesOf : Nat → List Nat
  headerEdges : Nat → List Nat
  roots : List Nat

/-- Fuel budget for a full trace, a function of the heap size only. -/
def gcFuel (h : GcHeap) : Nat :=
  (h.objects.length + h.roots.length + 1) * (h.objects.length + 1)

/-- The quick cycle's reachable set, traced over the true object graph. -/
def quickTrace (h : GcHeap) : List Nat :=
  gcMarkLoop h.edgesOf (gcFuel h) h.roots []

/-- The verification cycle's independent full trace, re-reading edges
through the object headers. -/
def verifyTrace (h : GcHeap) : List Nat :=
  gcMarkLoop h.headerEdges (gcFuel h) h.roots []

/-- Set equality of two mark lists. -/
def sameSet (l1 l2 : List Nat) : Bool :=
  l1.all (fun a => decide (a ∈ l2)) && l2.all (fun a => decide (a ∈ l1))

/-- Modelled from the spec: a `GC_VERIFY` collection cycle — a quick trace
followed by a second independent full trace; any mismatch of the two
reachable sets escalates to a fatal internal-consistency error. -/
def fullVerifyCycle (h : GcHeap) : Except String (List Nat) :=
  let quick := quickTrace h
  let verify := verifyTrace h
  if sameSet quick verify then .ok quick
  else .error "GC verify: reachable sets differ"

/-- The heap's headers are uncorrupted: for every object, the edges read
through its header are the true edges. -/
def Uncorrupted (h : GcHeap) : Prop :=
  ∀ o ∈ h.objects, h.headerEdges o = h.edgesOf o

/-- The heap is closed: roots are objects and edges lead to objects. -/
def ClosedHeap (h : GcHeap) : Prop :=
  (∀ r ∈ h.roots, r ∈ h.objects) ∧
  ∀ o ∈ h.objects, ∀ e ∈ h.edgesOf o, e ∈ h.objects

/-! ## Task scheduler and migration

Modelled from the spec (§4.4, §4.5): the scheduler is not in `src/`, only
the `MIGRATE_TASKS` toggle (options.h lines 119-120).  Resuming a task on
a worker other than the one it last ran on is a migration, permitted only
when migration is enabled and the task carries no sticky-worker hint; a
disallowed resume is a precondition failure (spec §7d), not performed. -/

/-- Task lifecycle states (spec §3). -/
inductive TaskState where
  | runnable
  | running
  | suspended
  | done
deriving DecidableEq, Repr

/-- A scheduler-visible task: state, the worker it last ran on (none
before its first run), and the sticky-worker hint. -/
structure STask where
  state : TaskState
  lastWorker : Option Nat
  sticky : Bool
deriving DecidableEq, Repr

/-- Scheduler configuration: the `MIGRATE_TASKS` toggle. -/
structure SchedConfig where
  migrateTasks : Bool
deriving DecidableEq, Repr

/-- Scheduler state: the task table, keyed by task id. -/
def SchedState := List (Nat × STask)

/-- Look up a task by id. -/
def getTask (s : SchedState) (id : Nat) : Option STask :=
  (List.find? (fun p => p.1 == id) s).map (fun p => p.2)

/-- Update (or insert) the task with the given id. -/
def setTask : SchedState → Nat → STask → SchedState
  | [], id, t => [(id, t)]
  | (i, u) :: rest, id, t =>
    if i == id then (id, t) :: rest else (i, u) :: setTask rest id t

/-- Scheduler events: spawn a task, suspend the running task, resume a
task on a given worker. -/
inductive SchedEvent where
  | spawn (id : Nat) (sticky : Bool)
  | suspend (id : Nat)
  | resume (id : Nat) (worker : Nat)
deriving DecidableEq, Repr

/-- May `t` be resumed on worker `w`?  Always on the worker it last ran
on (or if it never ran); on another worker only when migration is enabled
and the task is not sticky (spec §4.4). -/
def migrationAllowed (cfg : SchedConfig) (t : STask) (w : Nat) : Bool :=
  match t.lastWorker with
  | none => true
  | some w2 => w == w2 || (cfg.migrateTasks && !t.sticky)

/-- Modelled from the spec: one scheduler step.  `none` is a precondition
failure (spec §7d): the event is rejected and no state change happens. -/
def schedStep (cfg : SchedConfig) (s : SchedState) : SchedEvent → Option SchedState
  | .spawn id sticky =>
    match getTask s id with
    | some _ => none
    | none => some (setTask s id ⟨.runnable, none, sticky⟩)
  | .suspend id =>
    match getTask s id with
    | some t =>
      if t.state = .running then some (setTask s id { t with state := .suspended })
      else none
    | none => none
  | .resume id w =>
    match getTask s id with
    | some t =>
      if (t.state = .runnable ∨ t.state = .suspended) ∧ migrationAllowed cfg t w then
        some (setTask s id { t with state := .running, lastWorker := some w })
      else none
    | none => none

/-- Apply an event; a rejected event leaves the state unchanged. -/
def applyEvent (cfg : SchedConfig) (s : SchedState) (e : SchedEvent) : SchedState :=
  (schedStep cfg s e).getD s

/-- A successful resume in state `s` targets only the worker the task
last ran on (or a task that never ran). -/
def resumeRespectsAffinity (cfg : SchedConfig) (s : SchedState) : SchedEvent → Prop
  | .resume id w =>
    (schedStep cfg s (.resume id w)).isSome = true →
      ∀ t, getTask s id = some t → t.lastWorker = none ∨ t.lastWorker = some w
  | _ => True

/-- Every resume performed along the event sequence respects worker
affinity. -/
def traceRespectsAffinity (cfg : SchedConfig) : SchedState → List SchedEvent → Prop
  | _, [] => True
  | s, e :: es =>
    resumeRespectsAffinity cfg s e ∧ traceRespectsAffinity cfg (applyEvent cfg s e) es

/-! ## Copy-stack save/restore

Modelled from the spec (§4.4): under `COPY_STACKS` (options.h line 103),
`suspend` copies the currently-used portion of the worker's shared stack
buffer into the task's save buffer together with the resumption point, and
`resume` copies the save buffer back into the shared buffer before
transferring control. -/

/-- A copy-stack task: its save buffer and saved resumption state. -/
structure CTask where
  saveBuf : List Nat
  savedRegs : Nat
deriving DecidableEq, Repr

/-- A worker's execution context: the shared stack buffer contents and
the register state. -/
structure WorkerCtx where
  shared : List Nat
  regs : Nat
deriving DecidableEq, Repr

/-- Modelled from the spec: `suspend` under copy-stack mode — copy the
used portion of the shared buffer and the registers into the task. -/
def suspendTask (w : WorkerCtx) (used : Nat) (_t : CTask) : CTask :=
  { saveBuf := w.shared.take used, savedRegs := w.regs }

/-- Modelled from the spec: `resume` under copy-stack mode — copy the
task's save buffer back into the worker's shared buffer and restore the
registers. -/
def resumeTask (t : CTask) (w : WorkerCtx) : WorkerCtx :=
  { shared := t.saveBuf ++ w.shared.drop t.saveBuf.length, regs := t.savedRegs }

/-- The observable state of a task occupying a worker: registers plus the
used portion of the stack. -/
def observable (w : WorkerCtx) (used : Nat) : Nat × List Nat :=
  (w.regs, w.shared.take used)

/-- One suspend/resume round: the worker context at the moment of suspend,
the task's used stack length, and the worker context left behind by other
tasks before the resume. -/
structure Round where
  sharedAtSuspend : List Nat
  regsAtSuspend : Nat
  used : Nat
  interfere : WorkerCtx
deriving Repr

/-- Run a sequence of suspend/resume rounds, threading the task through;
each round yields the pair (observable at suspend, observable after the
matching resume). -/
def runRounds (t : CTask) : List Round → List ((Nat × List Nat) × (Nat × List Nat))
  | [] => []
  | r :: rs =>
    let wS : WorkerCtx := ⟨r.sharedAtSuspend, r.regsAtSuspend⟩
    let t2 := suspendTask wS r.used t
    let wR := resumeTask t2 r.interfere
    (observable wS r.used, observable wR r.used) :: runRounds t2 rs

/-! ## Concrete examples used as witnesses -/

/-- A default-shaped allocator configuration whose pool classes are all
bounded by `GC_MAX_SZCLASS`, as options.h line 22 requires. -/
def defaultCfg : AllocConfig :=
  { sizeClasses := [16, 64, 256, 1024, GC_MAX_SZCLASS]
    alignThreshold := ARRAY_CACHE_ALIGN_THRESHOLD
    cacheAlign := 64
    pageSize := 16384
    memDebug := false }

/-- The default configuration with `MEMDEBUG` turned on. -/
def memDebugCfg : AllocConfig := { defaultCfg with memDebug := true }

/-- A small example heap for the collector: objects 0-3, a cycle 0 → 1 → 0,
object 3 unreachable, with headers matching the true graph. -/
def exampleGcHeap : GcHeap :=
  { objects := [0, 1, 2, 3]
    edgesOf := fun o => if o = 0 then [1] else if o = 1 then [2, 0] else []
    headerEdges := fun o => if o = 0 then [1] else if o = 1 then [2, 0] else []
    roots := [0] }

/-- An example heap whose bump pointer is not cache-aligned. -/
def heapAt8 : Heap := ⟨[], [], 8, fun _ => 0⟩

/-- An example copy-stack suspend/resume round. -/
def exampleRound : Round := ⟨[1, 2, 3], 7, 2, ⟨[9, 9, 9, 9], 0⟩⟩

/-- An example scheduler trace: spawn, first run, suspend, resume. -/
def exampleTrace : List SchedEvent :=
  [.spawn 0 false, .resume 0 1, .suspend 0, .resume 0 1]

/-! ## Helper lemmas -/

/-- The maximum of a nonempty list of naturals is one of its elements. -/
theorem foldr_max_mem (l : List Nat) (h : l ≠ []) : l.foldr max 0 ∈ l := by
  induction l with
  | nil => exact absurd rfl h
  | cons a rest ih =>
    cases rest with
    | nil => simp
    | cons b r =>
      have hmem := ih (by simp)
      rw [List.foldr_cons]
      rcases Nat.le_total a (List.foldr max 0 (b :: r)) with hle | hle
      · rw [Nat.max_eq_right hle]
        exact List.mem_cons_of_mem _ hmem
      · rw [Nat.max_eq_left hle]
        exact List.mem_cons_self _ _

/-- `find?` for `s ≤ ·` succeeds as soon as some element is at least `s`. -/
theorem find_le_isSome (l : List Nat) (s m : Nat) (hm : m ∈ l) (hsm : s ≤ m) :
    ∃ k, l.find? (fun k => s ≤ k) = some k := by
  cases hf : l.find? (fun k => s ≤ k) with
  | some k => exact ⟨k, rfl⟩
  | none =>
    have := List.find?_eq_none.mp hf m hm
    simp only [decide_eq_true_eq] at this
    exact absurd hsm this

/-- On a sorted list, `find?` for `s ≤ ·` returns the least element ≥ `s`. -/
theorem find_le_min (l : List Nat) (hs : l.Pairwise (· ≤ ·)) (s k : Nat)
    (hf : l.find? (fun k => s ≤ k) = some k) :
    ∀ x ∈ l, s ≤ x → k ≤ x := by
  induction l with
  | nil => simp at hf
  | cons a rest ih =>
    rw [List.pairwise_cons] at hs
    by_cases hsa : s ≤ a
    · rw [List.find?_cons_of_pos rest (by simpa using hsa)] at hf
      cases hf
      intro x hx _
      rcases List.mem_cons.mp hx with hxa | hxr
      · exact hxa ▸ Nat.le_refl _
      · exact hs.1 x hxr
    · rw [List.find?_cons_of_neg rest (by simpa using hsa)] at hf
      intro x hx hsx
      rcases List.mem_cons.mp hx with hxa | hxr
      · exact absurd (hxa ▸ hsx) hsa
      · exact ih hs.2 hf x hxr hsx

/-- Growing a pool always yields a nonempty free-list. -/
theorem growPool_ne_nil (c : AllocConfig) (p : Pool) (b : Nat) :
    (growPool c p b).freeList ≠ [] := by
  unfold growPool
  intro hcon
  have hlen := congrArg List.length hcon
  simp only [List.length_append, List.length_map, List.length_range,
    List.length_nil] at hlen
  omega

/-- After `setPool`, looking up the pool's class finds exactly that pool. -/
theorem find_setPool (pools : List Pool) (p : Pool) :
    List.find? (fun q => q.classSize == p.classSize) (setPool pools p) = some p := by
  induction pools with
  | nil =>
    simp [setPool, List.find?_cons_of_pos]
  | cons q rest ih =>
    unfold setPool
    by_cases hq : q.classSize == p.classSize
    · rw [if_pos hq]
      exact List.find?_cons_of_pos _ (by simp)
    · rw [if_neg hq]
      have hstep :=
        List.find?_cons_of_neg (p := fun q => q.classSize == p.classSize) (a := q)
          (setPool rest p) hq
      rw [hstep]
      exact ih

/-- The pool returned by `getPool h k` carries class size `k`. -/
theorem getPool_classSize (h : Heap) (k : Nat) : (getPool h k).classSize = k := by
  unfold getPool
  cases hf : h.pools.find? (fun p => p.classSize == k) with
  | none => rfl
  | some p =>
    have := List.find?_some hf
    simpa using this

/-- A request with a size class is served from the pool of that class,
whatever the heap state. -/
theorem servedClass_of_sizeClass (c : AllocConfig) (s k : Nat)
    (hk : sizeClassFor c s = some k) (h : Heap) : servedClass c h s = some k := by
  unfold servedClass allocate
  rw [hk]
  cases hfl : (getPool h k).freeList with
  | cons a rest => simp [hfl]
  | nil =>
    cases hg : (growPool c (getPool h k) h.nextAddr).freeList with
    | cons a rest => simp [hfl, hg]
    | nil => exact absurd hg (growPool_ne_nil c _ _)

/-- A request with no size class takes the large-object path, whatever
the heap state. -/
theorem isLarge_of_no_class (c : AllocConfig) (h : Heap) (s : Nat)
    (hk : sizeClassFor c s = none) : isLargeAlloc c h s = true := by
  unfold isLargeAlloc allocate
  rw [hk]

/-- A large allocation at or above the alignment threshold is placed at
the cache-aligned bump address. -/
theorem allocBase_large (c : AllocConfig) (h : Heap) (s : Nat)
    (hk : sizeClassFor c s = none) (ha : c.alignThreshold ≤ s) :
    allocBase c h s = some (alignUp h.nextAddr c.cacheAlign) := by
  unfold allocBase allocate
  rw [hk]
  simp [ha, ObjectHandle.addr]

/-- `alignUp` produces a multiple of the alignment. -/
theorem alignUp_mod (a n : Nat) : alignUp a n % n = 0 := by
  unfold alignUp
  exact Nat.mul_mod_left _ _

/-- `allocate` succeeds on every size and every heap. -/
theorem alloc_succeeds_all (c : AllocConfig) (h : Heap) (s : Nat) :
    allocSucceeds c h s = true := by
  unfold allocSucceeds allocate
  cases hk : sizeClassFor c s with
  | none => rfl
  | some k =>
    cases hfl : (getPool h k).freeList with
    | cons a rest => simp [hfl]
    | nil =>
      cases hg : (growPool c (getPool h k) h.nextAddr).freeList with
      | cons a rest => simp [hfl, hg]
      | nil => exact absurd hg (growPool_ne_nil c _ _)

/-- The handle returned by `allocate` records the requested size. -/
theorem allocSize_eq (c : AllocConfig) (h : Heap) (s : Nat) :
    allocSize c h s = some s := by
  unfold allocSize allocate
  cases hk : sizeClassFor c s with
  | none => rfl
  | some k =>
    cases hfl : (getPool h k).freeList with
    | cons a rest => simp [hfl, ObjectHandle.size]
    | nil =>
      cases hg : (growPool c (getPool h k) h.nextAddr).freeList with
      | cons a rest => simp [hfl, hg, ObjectHandle.size]
      | nil => exact absurd hg (growPool_ne_nil c _ _)

/-- `sameSet` is reflexive. -/
theorem sameSet_self (l : List Nat) : sameSet l l = true := by
  simp [sameSet, List.all_eq_true]

/-- Worklist marking only consults the edge function on objects of the
universe, so two edge functions that agree on the universe produce the
same marking. -/
theorem gcMarkLoop_congr (objs : List Nat) (e1 e2 : Nat → List Nat)
    (hagree : ∀ o ∈ objs, e1 o = e2 o)
    (hclosed : ∀ o ∈ objs, ∀ x ∈ e1 o, x ∈ objs) :
    ∀ fuel wl marked, (∀ o ∈ wl, o ∈ objs) →
      gcMarkLoop e1 fuel wl marked = gcMarkLoop e2 fuel wl marked := by
  intro fuel
  induction fuel with
  | zero => intro wl marked _; rfl
  | succ n ih =>
    intro wl marked hwl
    cases wl with
    | nil => rfl
    | cons o rest =>
      have ho : o ∈ objs := hwl o (List.mem_cons_self o rest)
      have hrest : ∀ x ∈ rest, x ∈ objs := fun x hx => hwl x (List.mem_cons_of_mem _ hx)
      by_cases hmem : o ∈ marked
      · simp only [gcMarkLoop, if_pos hmem]
        exact ih rest marked hrest
      · simp only [gcMarkLoop, if_neg hmem]
        rw [hagree o ho]
        refine ih (e2 o ++ rest) (o :: marked) ?_
        intro x hx
        rcases List.mem_append.mp hx with hxe | hxr
        · exact hclosed o ho x ((hagree o ho).symm ▸ hxe)
        · exact hrest x hxr

/-- A request with no size class is not served from any pool. -/
theorem servedClass_none_of_no_class (c : AllocConfig) (h : Heap) (s : Nat)
    (hk : sizeClassFor c s = none) : servedClass c h s = none := by
  unfold servedClass allocate
  rw [hk]

/-- After `setPool pools p` with `p.classSize = k`, `getPool` at `k`
returns `p`. -/
theorem getPool_of_setPool (pools : List Pool) (lg : List (Nat × Nat)) (n : Nat)
    (m : Nat → Nat) (p : Pool) (k : Nat) (hcs : p.classSize = k) :
    getPool ⟨setPool pools p, lg, n, m⟩ k = p := by
  subst hcs
  unfold getPool
  rw [find_setPool]
  rfl

/-! ## Claim theorems -/

/-- C6: when every named environment variable is unset, `resolve()` returns
the compiled defaults — thread-sleep threshold 100,000 ns, worker-thread
count 1, and exclusive-affinity 0 (off). -/
theorem resolve_unset_env_defaults (env : String → Option String)
    (henv : ∀ n, env n = none) :
    resolve env = .ok { threadSleepThreshold := 100000, numThreads := 1,
                        machineExclusive := 0, numGcThreads := none,
                        heapSizeHint := none, threadpools := none } := by
  simp only [resolve, resolveNat, resolveOptNat, henv]
  rfl

/-- Witness for C6: the everywhere-unset environment. -/
theorem resolve_unset_env_defaults_witness :
    resolve (fun _ => none) = .ok { threadSleepThreshold := 100000, numThreads := 1,
                                    machineExclusive := 0, numGcThreads := none,
                                    heapSizeHint := none, threadpools := none } :=
  resolve_unset_env_defaults (fun _ => none) (fun _ => rfl)

/-- C10: with no stack size specified at spawn and none overridden in the
configuration (and no sanitizer), the default dedicated stack size is
8 MiB on 64-bit platforms and 2 MiB on 32-bit platforms. -/
theorem default_stack_sizes :
    spawnStackSize none (jlStackSize none ⟨false, false, false, true⟩) = 8 * 1024 * 1024 ∧
    spawnStackSize none (jlStackSize none ⟨false, false, false, false⟩) = 2 * 1024 * 1024 :=
  ⟨rfl, rfl⟩

/-- C7: `allocate` succeeds on every size, and an allocation of size 0
returns a valid zero-size handle rather than failing. -/
theorem allocate_accepts_all_sizes (c : AllocConfig) (h : Heap) (s : Nat) :
    allocSucceeds c h s = true ∧ allocSize c h 0 = some 0 :=
  ⟨alloc_succeeds_all c h s, allocSize_eq c h 0⟩

/-- Witness for C7: size 0 on the default configuration and empty heap. -/
theorem allocate_accepts_all_sizes_witness :
    allocSucceeds defaultCfg emptyHeap 0 = true ∧
    allocSize defaultCfg emptyHeap 0 = some 0 :=
  allocate_accepts_all_sizes defaultCfg emptyHeap 0

/-- C9: in debug-fill mode the poison pattern is the byte `0xbb`: freeing
a pooled slot overwrites every byte of its storage with `0xbb` and the
slot returns to its pool's free-list. -/
theorem memdebug_free_poisons (c : AllocConfig) (hdbg : c.memDebug = true)
    (h : Heap) (k addr a : Nat) (ha1 : addr ≤ a) (ha2 : a < addr + k) :
    (freePooled c h k addr).mem a = 0xbb ∧
    MEMDEBUG_POISON_BYTE = 0xbb ∧
    addr ∈ (getPool (freePooled c h k addr) k).freeList := by
  refine ⟨?_, rfl, ?_⟩
  · simp [freePooled, hdbg, poisonRange, MEMDEBUG_POISON_BYTE, ha1, ha2]
  · have hg : getPool (freePooled c h k addr) k =
        { getPool h k with freeList := addr :: (getPool h k).freeList } :=
      getPool_of_setPool h.pools h.largeObjs h.nextAddr _ _ k (getPool_classSize h k)
    rw [hg]
    exact List.mem_cons_self _ _

/-- Witness for C9: freeing the slot at 100 of class 16 poisons byte 105. -/
theorem memdebug_free_poisons_witness :
    (freePooled memDebugCfg emptyHeap 16 100).mem 105 = 0xbb ∧
    MEMDEBUG_POISON_BYTE = 0xbb ∧
    100 ∈ (getPool (freePooled memDebugCfg emptyHeap 16 100) 16).freeList :=
  memdebug_free_poisons memDebugCfg rfl emptyHeap 16 100 105 (by decide) (by decide)

/-- C8: the cache-alignment threshold strictly exceeds the largest pool
size class, so every request at or above the alignment threshold has no
size class and is served as a standalone large object, never from a
pool. -/
theorem cache_aligned_implies_large (c : AllocConfig) (h : Heap) (s : Nat)
    (hcls : ∀ k ∈ c.sizeClasses, k ≤ GC_MAX_SZCLASS)
    (halign : c.alignThreshold = ARRAY_CACHE_ALIGN_THRESHOLD)
    (hs : c.alignThreshold ≤ s) :
    GC_MAX_SZCLASS < ARRAY_CACHE_ALIGN_THRESHOLD ∧
    sizeClassFor c s = none ∧
    isLargeAlloc c h s = true ∧
    servedClass c h s = none := by
  have hnone : sizeClassFor c s = none := by
    apply List.find?_eq_none.mpr
    intro x hx
    simp only [decide_eq_true_eq]
    have hx2 : x ≤ 2024 := by simpa [GC_MAX_SZCLASS] using hcls x hx
    have hs2 : 2048 ≤ s := by
      rw [halign] at hs
      simpa [ARRAY_CACHE_ALIGN_THRESHOLD] using hs
    omega
  exact ⟨by decide, hnone, isLarge_of_no_class c h s hnone,
         servedClass_none_of_no_class c h s hnone⟩

/-- Witness for C8: a 2048-byte request on the default configuration. -/
theorem cache_aligned_implies_large_witness :
    GC_MAX_SZCLASS < ARRAY_CACHE_ALIGN_THRESHOLD ∧
    sizeClassFor defaultCfg 2048 = none ∧
    isLargeAlloc defaultCfg emptyHeap 2048 = true ∧
    servedClass defaultCfg emptyHeap 2048 = none :=
  cache_aligned_implies_large defaultCfg emptyHeap 2048 (by decide) rfl (by decide)

/-- C2: for a positive size at most the large-object threshold, `allocate`
serves the request from the pool whose class is the smallest class ≥ the
size, and any two sizes mapping to that class are served from the same
pool. -/
theorem pool_smallest_class (c : AllocConfig)
    (hsort : c.sizeClasses.Pairwise (· ≤ ·)) (hne : c.sizeClasses ≠ [])
    (s : Nat) (_hpos : 0 < s) (hle : s ≤ largeThreshold c) :
    ∃ k, sizeClassFor c s = some k ∧ k ∈ c.sizeClasses ∧ s ≤ k ∧
      (∀ x ∈ c.sizeClasses, s ≤ x → k ≤ x) ∧
      (∀ h : Heap, servedClass c h s = some k) ∧
      (∀ s2, sizeClassFor c s2 = some k → ∀ h : Heap, servedClass c h s2 = some k) := by
  obtain ⟨k, hk⟩ :=
    find_le_isSome c.sizeClasses s (largeThreshold c) (foldr_max_mem _ hne) hle
  have hsk : s ≤ k := by simpa using List.find?_some hk
  exact ⟨k, hk, List.mem_of_find?_eq_some hk, hsk,
         find_le_min c.sizeClasses hsort s k hk,
         fun h => servedClass_of_sizeClass c s k hk h,
         fun s2 hk2 h => servedClass_of_sizeClass c s2 k hk2 h⟩

/-- Witness for C2: size 100 on the scenario configuration maps to the
smallest class ≥ 100. -/
theorem pool_smallest_class_witness :
    ∃ k, sizeClassFor scenarioCfg 100 = some k ∧ k ∈ scenarioCfg.sizeClasses ∧
      100 ≤ k ∧
      (∀ x ∈ scenarioCfg.sizeClasses, 100 ≤ x → k ≤ x) ∧
      (∀ h : Heap, servedClass scenarioCfg h 100 = some k) ∧
      (∀ s2, sizeClassFor scenarioCfg s2 = some k →
        ∀ h : Heap, servedClass scenarioCfg h s2 = some k) :=
  pool_smallest_class scenarioCfg (by decide) (by decide) 100 (by decide) (by decide)

/-- C1 counterexample: with large-object threshold = 2048 and alignment
threshold = 2048, an allocation of exactly 2048 bytes is NOT a large
object — it is served from the 2048-byte pool, because the allocator
routes `size ≤ threshold` to the pools. -/
theorem scenario_exact_threshold_not_large :
    isLargeAlloc scenarioCfg emptyHeap 2048 = false ∧
    servedClass scenarioCfg emptyHeap 2048 = some 2048 :=
  ⟨by decide, by decide⟩

/-- C1 (amended): in the scenario configuration, allocate(2048) and
allocate(2047) are both served from the 2048-byte pool; allocate(2049) is
a large object whose base is cache-line aligned; and a pooled allocation
need not be cache-aligned (a heap with bump pointer 8 serves 2047 at
address 8). -/
theorem scenario_allocation_amended (h : Heap) :
    servedClass scenarioCfg h 2048 = some 2048 ∧
    servedClass scenarioCfg h 2047 = some 2048 ∧
    isLargeAlloc scenarioCfg h 2049 = true ∧
    allocBase scenarioCfg h 2049 = some (alignUp h.nextAddr 64) ∧
    alignUp h.nextAddr 64 % 64 = 0 ∧
    allocBase scenarioCfg heapAt8 2047 = some 8 ∧ 8 % 64 ≠ 0 :=
  ⟨servedClass_of_sizeClass scenarioCfg 2048 2048 (by decide) h,
   servedClass_of_sizeClass scenarioCfg 2047 2048 (by decide) h,
   isLarge_of_no_class scenarioCfg h 2049 (by decide),
   allocBase_large scenarioCfg h 2049 (by decide) (by decide),
   alignUp_mod h.nextAddr 64,
   by decide, by decide⟩

/-- Witness for C1 (amended): the empty heap. -/
theorem scenario_allocation_amended_witness :
    servedClass scenarioCfg emptyHeap 2048 = some 2048 ∧
    servedClass scenarioCfg emptyHeap 2047 = some 2048 ∧
    isLargeAlloc scenarioCfg emptyHeap 2049 = true ∧
    allocBase scenarioCfg emptyHeap 2049 = some (alignUp emptyHeap.nextAddr 64) ∧
    alignUp emptyHeap.nextAddr 64 % 64 = 0 ∧
    allocBase scenarioCfg heapAt8 2047 = some 8 ∧ 8 % 64 ≠ 0 :=
  scenario_allocation_amended emptyHeap

/-- C3: on a closed heap with uncorrupted object headers, the full
verification trace computes the same reachable set as the quick cycle it
follows, and the fatal internal-consistency error path is not taken. -/
theorem gc_verify_agrees (h : GcHeap) (hc : ClosedHeap h) (hu : Uncorrupted h) :
    verifyTrace h = quickTrace h ∧ fullVerifyCycle h = .ok (quickTrace h) := by
  have htr : verifyTrace h = quickTrace h := by
    unfold verifyTrace quickTrace
    exact (gcMarkLoop_congr h.objects h.edgesOf h.headerEdges
      (fun o ho => (hu o ho).symm) hc.2 (gcFuel h) h.roots [] hc.1).symm
  refine ⟨htr, ?_⟩
  have hfv : fullVerifyCycle h =
      if sameSet (quickTrace h) (verifyTrace h) then .ok (quickTrace h)
      else .error "GC verify: reachable sets differ" := rfl
  rw [hfv, htr, sameSet_self]
  simp

/-- Witness for C3: the example heap with a cycle and matching headers. -/
theorem gc_verify_agrees_witness :
    verifyTrace exampleGcHeap = quickTrace exampleGcHeap ∧
    fullVerifyCycle exampleGcHeap = .ok (quickTrace exampleGcHeap) :=
  gc_verify_agrees exampleGcHeap ⟨by decide, by decide⟩ (fun o _ => rfl)

/-- C4: with migration disabled, along any finite sequence of
spawn/suspend/resume scheduler steps from any state, every resume that the
scheduler performs targets the worker the task last ran on (or a task that
has not yet run). -/
theorem no_migration_when_disabled (cfg : SchedConfig)
    (hm : cfg.migrateTasks = false) (s : SchedState) (es : List SchedEvent) :
    traceRespectsAffinity cfg s es := by
  induction es generalizing s with
  | nil => trivial
  | cons e rest ih =>
    refine ⟨?_, ih (applyEvent cfg s e)⟩
    cases e with
    | spawn id sticky => trivial
    | suspend id => trivial
    | resume id w =>
      intro hsome t ht
      simp only [schedStep, ht] at hsome
      split at hsome
      case isTrue hcond =>
        have hmig : migrationAllowed cfg t w = true := hcond.2
        cases hlw : t.lastWorker with
        | none => exact Or.inl rfl
        | some w2 =>
          unfold migrationAllowed at hmig
          rw [hlw, hm] at hmig
          simp only [Bool.false_and, Bool.or_false] at hmig
          have hw : w = w2 := by simpa using hmig
          exact Or.inr (by rw [hw])
      case isFalse => simp at hsome

/-- Witness for C4: migration-disabled configuration over the example
trace. -/
theorem no_migration_when_disabled_witness :
    traceRespectsAffinity ⟨false⟩ [] exampleTrace :=
  no_migration_when_disabled ⟨false⟩ rfl [] exampleTrace

/-- C5: in copy-stack mode, whenever each round's used stack portion fits
the shared buffer, the observable register/stack state after every resume
equals the state at the matching suspend — position by position, the Nth
resume restores the Nth suspend's snapshot. -/
theorem copy_stack_roundtrip (t : CTask) (rounds : List Round)
    (hfit : ∀ r ∈ rounds, r.used ≤ r.sharedAtSuspend.length) :
    (runRounds t rounds).map Prod.fst = (runRounds t rounds).map Prod.snd := by
  induction rounds generalizing t with
  | nil => rfl
  | cons r rs ih =>
    have hr := hfit r (List.mem_cons_self r rs)
    have htail := ih (suspendTask ⟨r.sharedAtSuspend, r.regsAtSuspend⟩ r.used t)
      (fun x hx => hfit x (List.mem_cons_of_mem _ hx))
    have hhead : observable ⟨r.sharedAtSuspend, r.regsAtSuspend⟩ r.used =
        observable
          (resumeTask (suspendTask ⟨r.sharedAtSuspend, r.regsAtSuspend⟩ r.used t)
            r.interfere) r.used := by
      simp only [observable, resumeTask, suspendTask, Prod.mk.injEq]
      refine ⟨trivial, ?_⟩
      have hlen : (r.sharedAtSuspend.take r.used).length = r.used := by
        rw [List.length_take]
        exact Nat.min_eq_left hr
      rw [List.take_append_eq_append_take, hlen, Nat.sub_self, List.take_zero,
        List.append_nil, List.take_of_length_le (le_of_eq hlen)]
    simp only [runRounds, List.map_cons, htail]
    rw [hhead]

/-- Witness for C5: one concrete suspend/resume round. -/
theorem copy_stack_roundtrip_witness :
    (runRounds ⟨[], 0⟩ [exampleRound]).map Prod.fst =
    (runRounds ⟨[], 0⟩ [exampleRound]).map Prod.snd :=
  copy_stack_roundtrip ⟨[], 0⟩ [exampleRound] (by decide)

end JuliaRT
